import Mathlib

set_option maxRecDepth 100000

/-!
Verification of the caching/governance layer of this repository.

Shallow embedding of:
* lib/database.ts — the Vercel KV adapter `db` (get / set / delete / list),
* lib/cache.ts    — `EdgeCache` (two-tier cache: in-process memory over KV),
* lib/utils.ts    — `RateLimiter` and `PerformanceMonitor`.

Modelling conventions:
* Time is explicit: every operation takes `now : Int` (milliseconds since
  epoch).  All the `Date.now()` calls inside one operation are modelled as
  the same instant `now`.
* JS `Map` is an association list with JS `Map` semantics (`mapGet`,
  `mapSet` replaces in place, `mapDelete`); the KV keyspace likewise.
* Durable-store failures are modelled by a `DBFail` record of flags saying
  which kind of `db` call throws; a thrown call leaves the store unchanged.
  The TypeScript `try/catch` structure is reproduced exactly in the branches
  of each operation.
* Each cache operation also returns the list of durable-tier calls it
  issued (`trace`), so that claims about "which tier was touched" are
  statable.
* Fallible fetchers are `Option (Except String JSValue)`: `none` = no
  fetcher supplied, `some (Except.error e)` = the fetcher threw.
* `JSON.stringify`/ISO-8601 rendering: values are the inductive `JSValue`;
  `JSValue.stringify` renders them (string escaping of quote and backslash;
  no claim depends on metadata sizes).  Timestamp fields keep the instant
  as an `Int` instead of its ISO-8601 rendering.
-/

/-- Values stored in the cache (the JSON-serializable `any` of the source). -/
inductive JSValue where
  | null
  | bool (b : Bool)
  | num (n : Int)
  | str (s : String)
  deriving DecidableEq

/-- JS truthiness of a `JSValue`: `null`, `false`, `0` and `""` are falsy. -/
def JSValue.truthy : JSValue → Bool
  | JSValue.null => false
  | JSValue.bool b => b
  | JSValue.num n => n != 0
  | JSValue.str s => s != ""

/-- JSON string escaping for one character (quote and backslash). -/
def escapeJsonChar (c : Char) : String :=
  if c = '"' then "\\\"" else if c = '\\' then "\\\\" else c.toString

/-- JSON string escaping. -/
def escapeJson (s : String) : String :=
  String.join (s.toList.map escapeJsonChar)

/-- `JSON.stringify` on a `JSValue`. -/
def JSValue.stringify : JSValue → String
  | JSValue.null => "null"
  | JSValue.bool true => "true"
  | JSValue.bool false => "false"
  | JSValue.num n => toString n
  | JSValue.str s => "\"" ++ escapeJson s ++ "\""

/-- JS `Map.get` on an association list (`none` = `undefined`). -/
def mapGet {α : Type} (m : List (String × α)) (k : String) : Option α :=
  (m.find? (fun p => p.1 == k)).map (fun p => p.2)

/-- JS `Map.set`: replace the binding in place if the key is present,
otherwise append at the end (JS `Map` preserves insertion order). -/
def mapSet {α : Type} : List (String × α) → String → α → List (String × α)
  | [], k, v => [(k, v)]
  | p :: rest, k, v => if p.1 == k then (k, v) :: rest else p :: mapSet rest k v

/-- JS `Map.delete` / redis `del`. -/
def mapDelete {α : Type} (m : List (String × α)) (k : String) : List (String × α) :=
  m.filter (fun p => p.1 != k)

/-- `metadata` of a stored record (lib/database.ts `JSONData.metadata`). -/
structure JSONMetadata where
  size : Nat
  format : String
  expires : Option Int
  region : Option String
  deriving DecidableEq

/-- The record `db.set` wraps every stored value in (lib/database.ts). -/
structure JSONData where
  id : String
  data : JSValue
  timestamp : Int
  version : Nat
  metadata : Option JSONMetadata
  deriving DecidableEq

/-- One redis entry: the stored record plus its server-side expiry
(`none` for `kv.set`, `some` absolute ms deadline for `kv.setex`). -/
structure KVEntry where
  value : JSONData
  expiresAt : Option Int
  deriving DecidableEq

/-- The durable tier's keyspace. -/
abbrev KV := List (String × KVEntry)

/-- Is a redis entry still live at instant `now`? -/
def kvLive (now : Int) (e : KVEntry) : Bool :=
  match e.expiresAt with
  | none => true
  | some t => now < t

/-- `db.get` (lib/database.ts): `kv.get`, which reports an absent or
server-side-expired key as `null`. -/
def db.get (now : Int) (kv : KV) (key : String) : Option JSONData :=
  match mapGet kv key with
  | some e => if kvLive now e then some e.value else none
  | none => none

/-- `db.set` (lib/database.ts): wraps `data` into a `JSONData` record and
stores it with `kv.setex` when `ttlSeconds` is truthy (nonzero), with a
plain `kv.set` (no expiry) otherwise. -/
def db.set (now : Int) (kv : KV) (key : String) (data : JSValue) (ttlSeconds : Int) : KV :=
  let jsonData : JSONData :=
    { id := key
      data := data
      timestamp := now
      version := 1
      metadata := some
        { size := data.stringify.length
          format := "json"
          expires := if ttlSeconds == 0 then none else some (now + ttlSeconds * 1000)
          region := none } }
  if ttlSeconds == 0 then
    mapSet kv key { value := jsonData, expiresAt := none }
  else
    mapSet kv key { value := jsonData, expiresAt := some (now + ttlSeconds * 1000) }

/-- `db.delete` (lib/database.ts): `kv.del`. -/
def db.delete (kv : KV) (key : String) : KV := mapDelete kv key

/-- Redis glob matching restricted to the shapes the cache layer uses:
a single trailing `*` wildcard, or a literal key otherwise. -/
def patMatch (pattern key : String) : Bool :=
  if pattern.endsWith "*" then String.isPrefixOf (pattern.dropRight 1) key
  else pattern == key

/-- `db.list` (lib/database.ts): `kv.keys(pattern)` — the live keys
matching the pattern. -/
def db.list (now : Int) (kv : KV) (pattern : String) : List String :=
  (kv.filter (fun p => kvLive now p.2 && patMatch pattern p.1)).map (fun p => p.1)

/-- `CACHE_PREFIX` (lib/cache.ts): the reserved cache key-space prefix. -/
def CACHE_PREFIX : String := "cache:"

/-- `DEFAULT_TTL` (lib/cache.ts): 60 seconds. -/
def DEFAULT_TTL : Int := 60

/-- One memory-cache entry of `EdgeCache` (`{ data, expires }`). -/
structure MemEntry where
  data : JSValue
  expires : Int
  deriving DecidableEq

/-- `EdgeCache` instance state (lib/cache.ts): the in-process memory tier. -/
structure EdgeCache where
  memoryCache : List (String × MemEntry)
  deriving DecidableEq

/-- Which durable-store calls throw during the modelled operation.
A thrown call is caught by the TypeScript `try/catch` it occurs under. -/
structure DBFail where
  getFails : Bool
  setFails : Bool
  deleteFails : Bool
  listFails : Bool
  deriving DecidableEq

/-- One durable-tier call, for the operation's trace. -/
inductive DBOp where
  | getOp (key : String)
  | setOp (key : String)
  | delOp (key : String)
  | listOp (pattern : String)
  deriving DecidableEq

/-- How `EdgeCache.get` produced its result (the source logs these as
memory hit / KV hit / miss-fetching-fresh / fetcher error / plain null). -/
inductive GetOutcome where
  | hitLocal
  | hitDurable
  | missFresh
  | fetchFailed
  | absent
  deriving DecidableEq

/-- Result of a state-changing cache operation: new tiers plus the list of
durable-tier calls that were issued. -/
structure OpResult where
  cache : EdgeCache
  kv : KV
  trace : List DBOp
  deriving DecidableEq

/-- Result of `EdgeCache.get`. -/
structure GetResult where
  value : Option JSValue
  outcome : GetOutcome
  cache : EdgeCache
  kv : KV
  trace : List DBOp
  deriving DecidableEq

/-- `EdgeCache.set` (lib/cache.ts lines 180–195): store in KV with the
caller's TTL, then in memory with expiry `now + min(ttl*1000, 10000)`.
Both writes sit in one `try`: if `db.set` throws, the error is caught and
logged and the memory tier is left untouched. -/
def EdgeCache.set (c : EdgeCache) (kv : KV) (fail : DBFail) (now : Int)
    (key : String) (data : JSValue) (ttl : Int) : OpResult :=
  if fail.setFails then
    { cache := c, kv := kv, trace := [DBOp.setOp ( CACHE_PREFIX ++ key)] }
  else
    { cache := { memoryCache := mapSet c.memoryCache ( CACHE_PREFIX ++ key)
                   { data := data, expires := now + min (ttl * 1000) 10000 } }
      kv := db.set now kv ( CACHE_PREFIX ++ key) data ttl
      trace := [DBOp.setOp ( CACHE_PREFIX ++ key)] }

/-- Step 3 of `EdgeCache.get`: fetch fresh data if a fetcher was provided,
storing a successful result in both tiers via `EdgeCache.set`; a fetcher
error is caught and surfaced as `null`. -/
def EdgeCache.getFetchPath (c : EdgeCache) (kv : KV) (fail : DBFail) (now : Int)
    (key : String) (fetcher : Option (Except String JSValue)) (ttl : Int)
    (tr : List DBOp) : GetResult :=
  match fetcher with
  | some (Except.ok freshData) =>
      let s := EdgeCache.set c kv fail now key freshData ttl
      { value := some freshData, outcome := GetOutcome.missFresh
        cache := s.cache, kv := s.kv, trace := tr ++ s.trace }
  | some (Except.error _) =>
      { value := none, outcome := GetOutcome.fetchFailed
        cache := c, kv := kv, trace := tr }
  | none =>
      { value := none, outcome := GetOutcome.absent
        cache := c, kv := kv, trace := tr }

/-- Step 2 of `EdgeCache.get`: the KV probe (its own `try/catch`; a thrown
`db.get` falls through to the fetcher).  On a hit with truthy `data`, the
memory tier is refreshed with the fixed window `now + 10000` and the value
returned; a falsy `data` falls through to the fetcher. -/
def EdgeCache.getDurablePath (c : EdgeCache) (kv : KV) (fail : DBFail) (now : Int)
    (key : String) (fetcher : Option (Except String JSValue)) (ttl : Int) : GetResult :=
  if fail.getFails then
    EdgeCache.getFetchPath c kv fail now key fetcher ttl [DBOp.getOp ( CACHE_PREFIX ++ key)]
  else
    match db.get now kv ( CACHE_PREFIX ++ key) with
    | some kvCached =>
        if kvCached.data.truthy then
          { value := some kvCached.data, outcome := GetOutcome.hitDurable
            cache := { memoryCache := mapSet c.memoryCache ( CACHE_PREFIX ++ key)
                         { data := kvCached.data, expires := now + 10000 } }
            kv := kv, trace := [DBOp.getOp ( CACHE_PREFIX ++ key)] }
        else
          EdgeCache.getFetchPath c kv fail now key fetcher ttl
            [DBOp.getOp ( CACHE_PREFIX ++ key)]
    | none =>
        EdgeCache.getFetchPath c kv fail now key fetcher ttl
          [DBOp.getOp ( CACHE_PREFIX ++ key)]

/-- `EdgeCache.get` (lib/cache.ts lines 134–177): memory tier first (hit
only if `expires > now`), then the KV tier, then the fetcher. -/
def EdgeCache.get (c : EdgeCache) (kv : KV) (fail : DBFail) (now : Int)
    (key : String) (fetcher : Option (Except String JSValue)) (ttl : Int) : GetResult :=
  match mapGet c.memoryCache ( CACHE_PREFIX ++ key) with
  | some memoryCached =>
      if now < memoryCached.expires then
        { value := some memoryCached.data, outcome := GetOutcome.hitLocal
          cache := c, kv := kv, trace := [] }
      else EdgeCache.getDurablePath c kv fail now key fetcher ttl
  | none => EdgeCache.getDurablePath c kv fail now key fetcher ttl

/-- `EdgeCache.invalidatePattern` (lib/cache.ts lines 210–220): list the
keys matching `CACHE_PREFIX ++ pattern` from KV, then delete each from
both tiers.  Everything sits in one `try`: a thrown `db.list` (or first
thrown `db.delete`) aborts the loop with both tiers unchanged, the error
caught and logged. -/
def EdgeCache.invalidatePattern (c : EdgeCache) (kv : KV) (fail : DBFail) (now : Int)
    (pattern : String) : OpResult :=
  if fail.listFails then
    { cache := c, kv := kv, trace := [DBOp.listOp ( CACHE_PREFIX ++ pattern)] }
  else
    match db.list now kv ( CACHE_PREFIX ++ pattern), fail.deleteFails with
    | k :: _, true =>
        { cache := c, kv := kv
          trace := [DBOp.listOp ( CACHE_PREFIX ++ pattern), DBOp.delOp k] }
    | keys, _ =>
        { cache := { memoryCache := keys.foldl mapDelete c.memoryCache }
          kv := keys.foldl db.delete kv
          trace := DBOp.listOp ( CACHE_PREFIX ++ pattern) :: keys.map DBOp.delOp }

/-- `EdgeCache.clear` (lib/cache.ts lines 223–233): list every
`cache:`-prefixed key from KV, delete each from KV, then clear the memory
tier.  The memory `clear()` is the last statement of the same `try`: a
thrown `db.list` (or first thrown `db.delete`) is caught and logged and
the memory tier is left untouched. -/
def EdgeCache.clear (c : EdgeCache) (kv : KV) (fail : DBFail) (now : Int) : OpResult :=
  if fail.listFails then
    { cache := c, kv := kv, trace := [DBOp.listOp ( CACHE_PREFIX ++ "*")] }
  else
    match db.list now kv ( CACHE_PREFIX ++ "*"), fail.deleteFails with
    | k :: _, true =>
        { cache := c, kv := kv
          trace := [DBOp.listOp ( CACHE_PREFIX ++ "*"), DBOp.delOp k] }
    | keys, _ =>
        { cache := { memoryCache := [] }
          kv := keys.foldl db.delete kv
          trace := DBOp.listOp ( CACHE_PREFIX ++ "*") :: keys.map DBOp.delOp }

/-- `EdgeCache.cleanupMemory` (lib/cache.ts lines 244–251): drop every
memory entry with `expires <= now`. -/
def EdgeCache.cleanupMemory (c : EdgeCache) (now : Int) : EdgeCache :=
  { memoryCache := c.memoryCache.filter (fun p => decide (now < p.2.expires)) }

/-- `RateLimiter` state (lib/utils.ts lines 95–103): per-identifier lists
of request timestamps plus the construction-time configuration. -/
structure RateLimiter where
  requests : List (String × List Int)
  maxRequests : Nat
  windowMs : Int
  deriving DecidableEq

/-- `RateLimiter.isAllowed` (lib/utils.ts lines 105–121): filter the
identifier's timestamps to those with `now - time < windowMs`; reject
(state untouched) when their count has reached `maxRequests`, otherwise
append `now`, store the pruned-plus-new list, and admit. -/
def RateLimiter.isAllowed (rl : RateLimiter) (now : Int) (identifier : String) :
    Bool × RateLimiter :=
  let requestTimes := (mapGet rl.requests identifier).getD []
  let validRequests := requestTimes.filter (fun time => now - time < rl.windowMs)
  if rl.maxRequests ≤ validRequests.length then
    (false, rl)
  else
    (true, { rl with requests := mapSet rl.requests identifier (validRequests ++ [now]) })

/-- The admission algorithm exactly as the claim words it: prune to the
timestamps inside the closed interval from `now - windowMs` to `now`,
admit and append `now` when the pruned count is below `maxRequests`.
(Spec-side definition, for comparison with `RateLimiter.isAllowed`.) -/
def RateLimiter.isAllowedClaimWindow (rl : RateLimiter) (now : Int) (identifier : String) :
    Bool × RateLimiter :=
  let requestTimes := (mapGet rl.requests identifier).getD []
  let validRequests := requestTimes.filter
    (fun time => now - rl.windowMs ≤ time && time ≤ now)
  if rl.maxRequests ≤ validRequests.length then
    (false, rl)
  else
    (true, { rl with requests := mapSet rl.requests identifier (validRequests ++ [now]) })

/-- The admission algorithm with the amended pruning interval: keep exactly
the timestamps strictly newer than `now - windowMs`.  (Spec-side definition
of the amended claim, for comparison with `RateLimiter.isAllowed`.) -/
def RateLimiter.isAllowedStrictWindow (rl : RateLimiter) (now : Int) (identifier : String) :
    Bool × RateLimiter :=
  let requestTimes := (mapGet rl.requests identifier).getD []
  let validRequests := requestTimes.filter (fun time => now - rl.windowMs < time)
  if rl.maxRequests ≤ validRequests.length then
    (false, rl)
  else
    (true, { rl with requests := mapSet rl.requests identifier (validRequests ++ [now]) })

/-- Run a sequence of `isAllowed` calls for one identifier at the given
instants, collecting the admit/reject decisions. -/
def RateLimiter.runCalls (rl : RateLimiter) (identifier : String) : List Int → List Bool
  | [] => []
  | t :: ts =>
      let r := rl.isAllowed t identifier
      r.1 :: RateLimiter.runCalls r.2 identifier ts

/-- Cache outcome tag of a metric sample. -/
inductive CacheStatus where
  | hit
  | miss
  | stale
  deriving DecidableEq

/-- `PerformanceMetrics` (lib/utils.ts lines 13–18). -/
structure PerformanceMetrics where
  responseTime : Int
  cacheStatus : CacheStatus
  region : String
  timestamp : String
  deriving DecidableEq

/-- `PerformanceMonitor` state (lib/utils.ts lines 137–139). -/
structure PerformanceMonitor where
  metrics : List PerformanceMetrics
  maxMetrics : Nat
  deriving DecidableEq

/-- JS `Array.prototype.slice(start)`: a negative `start` counts from the
end (clamped at the front), a non-negative one from the front.  Note
`-0 === 0` in JS, so `slice(-0)` selects from the start. -/
def jsSliceFrom {α : Type} (l : List α) (start : Int) : List α :=
  if start < 0 then l.drop (l.length - (-start).toNat) else l.drop start.toNat

/-- `PerformanceMonitor.addMetric` (lib/utils.ts lines 141–148): push, then
keep only the last `maxMetrics` samples via `slice(-maxMetrics)`. -/
def PerformanceMonitor.addMetric (pm : PerformanceMonitor)
    (metric : PerformanceMetrics) : PerformanceMonitor :=
  let ms := pm.metrics ++ [metric]
  if pm.maxMetrics < ms.length then
    { pm with metrics := jsSliceFrom ms (-(pm.maxMetrics : Int)) }
  else
    { pm with metrics := ms }

/-- Ascending sort of the response times, embedding the source's
`.sort((a, b) => a - b)`: any comparator-consistent sort yields the same
ascending reordering, here insertion sort. -/
def sortAsc (l : List Int) : List Int :=
  List.insertionSort (fun a b => a ≤ b) l

/-- The record `PerformanceMonitor.getStats` returns.  `count` is an
integer, the two percentiles are entries of the sample list, and the mean
and hit rate are exact rationals (the JS floating-point evaluation of
these two divisions is not modelled; no claim rests on float rounding). -/
structure Stats where
  count : Nat
  averageResponseTime : Rat
  cacheHitRate : Rat
  p95ResponseTime : Int
  p99ResponseTime : Int
  deriving DecidableEq

/-- `PerformanceMonitor.getStats` (lib/utils.ts lines 150–174).  The
percentile indices embed the source's `Math.floor(length * 0.95)` and
`Math.floor(length * 0.99)`: for every `length ≤ maxMetrics = 100` (the
bound `addMetric` enforces) the double-precision products round so that
the JS floor equals the exact natural-number floor used here.  The
source's `responseTimes[i] || 0` is `getD i 0`: `undefined` maps to 0,
and a falsy stored `0` maps to the same `0`. -/
def PerformanceMonitor.getStats (pm : PerformanceMonitor) : Stats :=
  if pm.metrics.length = 0 then
    { count := 0, averageResponseTime := 0, cacheHitRate := 0
      p95ResponseTime := 0, p99ResponseTime := 0 }
  else
    let responseTimes := sortAsc (pm.metrics.map (fun m => m.responseTime))
    let cacheHits := (pm.metrics.filter (fun m => m.cacheStatus == CacheStatus.hit)).length
    let p95Index := pm.metrics.length * 95 / 100
    let p99Index := pm.metrics.length * 99 / 100
    { count := pm.metrics.length
      averageResponseTime :=
        ((responseTimes.foldl (fun a b => a + b) 0 : Int) : Rat) / (pm.metrics.length : Rat)
      cacheHitRate := ((cacheHits : Rat) / (pm.metrics.length : Rat)) * 100
      p95ResponseTime := responseTimes.getD p95Index 0
      p99ResponseTime := responseTimes.getD p99Index 0 }

/-- `PerformanceMonitor.getRecentMetrics` (lib/utils.ts lines 176–178):
`metrics.slice(-limit)`. -/
def PerformanceMonitor.getRecentMetrics (pm : PerformanceMonitor) (limit : Nat) :
    List PerformanceMetrics :=
  jsSliceFrom pm.metrics (-(limit : Int))

/-- Feed a list of samples through `addMetric` in order. -/
def feedMetrics (pm : PerformanceMonitor) (l : List PerformanceMetrics) :
    PerformanceMonitor :=
  l.foldl PerformanceMonitor.addMetric pm

/-- The 100 samples with response times 10, 20, ..., 1000 of the
percentile example, all tagged as hits. -/
def samples100 : List PerformanceMetrics :=
  (List.range 100).map (fun i =>
    { responseTime := ((i : Int) + 1) * 10, cacheStatus := CacheStatus.hit
      region := "", timestamp := "" })

/-- Looking up a key right after `mapSet` yields the value just stored. -/
theorem mapGet_mapSet_self {α : Type} (m : List (String × α)) (k : String) (v : α) :
    mapGet (mapSet m k v) k = some v := by
  induction m with
  | nil => simp [mapGet, mapSet, List.find?]
  | cons p rest ih =>
      cases h : p.1 == k with
      | true => simp [mapGet, mapSet, h, List.find?]
      | false => simpa [mapGet, mapSet, h, List.find?] using ih

/-- The KV-probe-and-below part of `get` never reports a local-tier hit. -/
theorem getDurablePath_outcome_ne_hitLocal (c : EdgeCache) (kv : KV) (fail : DBFail)
    (now : Int) (key : String) (fetcher : Option (Except String JSValue)) (ttl : Int) :
    (EdgeCache.getDurablePath c kv fail now key fetcher ttl).outcome ≠
      GetOutcome.hitLocal := by
  unfold EdgeCache.getDurablePath EdgeCache.getFetchPath
  rcases fetcher with _ | f
  · split <;> [simp; skip]
    split
    · split <;> simp
    · simp
  · rcases f with v | e <;>
      · split <;> [simp; skip]
        split
        · split <;> simp
        · simp

/-- Membership after folding `db.delete` over a list of keys: the entry
was already there and its key is none of the deleted ones. -/
theorem mem_foldl_db_delete {keys : List String} {kv : KV} {p : String × KVEntry}
    (h : p ∈ keys.foldl db.delete kv) : p ∈ kv ∧ p.1 ∉ keys := by
  induction keys generalizing kv with
  | nil => simpa using h
  | cons k ks ih =>
      obtain ⟨hmem, hnotin⟩ := ih h
      have hp := List.mem_filter.mp hmem
      refine ⟨hp.1, ?_⟩
      have hne : p.1 ≠ k := by simpa using hp.2
      simp [List.mem_cons, hne, hnotin]

/-- After deleting every key that `db.list` reported for a pattern, a
fresh `db.list` for the same pattern at the same instant reports nothing. -/
theorem dbList_foldl_delete (now : Int) (kv : KV) (pattern : String) :
    db.list now ((db.list now kv pattern).foldl db.delete kv) pattern = [] := by
  unfold db.list
  rw [List.map_eq_nil_iff]
  rw [List.filter_eq_nil_iff]
  intro p hp hq
  obtain ⟨hkv, hnot⟩ := mem_foldl_db_delete hp
  exact hnot (List.mem_map.mpr ⟨p, List.mem_filter.mpr ⟨hkv, hq⟩, rfl⟩)

/-- A concrete durable record used by the C1 witness. -/
def dC1 : JSONData :=
  { id := "cache:k", data := JSValue.num 7, timestamp := 0, version := 1, metadata := none }

/-- A concrete durable tier holding `dC1` under the cache's key. -/
def kvC1 : KV := [("cache:k", { value := dC1, expiresAt := none })]

/-- C1 counterexample: the claim has the asymmetry backwards.  With
requested TTL 1 s, a durable-tier hit populates the local tier with the
fixed window 10000 ms — not the claimed `min(ttl, 10 s) = 1000 ms`; and
`set` with requested TTL 60 s populates the local tier with 10000 ms — not
the claimed full 60000 ms. -/
theorem localRefreshAsymmetry_cx :
    mapGet (EdgeCache.get { memoryCache := [] } kvC1 ⟨false, false, false, false⟩ 0 "k"
        none 1).cache.memoryCache "cache:k" =
      some { data := JSValue.num 7, expires := 10000 } ∧
    (10000 : Int) ≠ min (1 * 1000) 10000 ∧
    mapGet (EdgeCache.set { memoryCache := [] } [] ⟨false, false, false, false⟩ 0 "k"
        (JSValue.num 7) 60).cache.memoryCache "cache:k" =
      some { data := JSValue.num 7, expires := 10000 } ∧
    (10000 : Int) ≠ 60 * 1000 := by decide

/-- C1 (amended): the refresh-window asymmetry runs the other way round:
when `get` populates the local tier from a durable-tier hit it uses the
fixed 10-second window `now + 10000`, independent of the caller's TTL;
when the local tier is populated through `set` (hence also from a fresh
fetcher result) it uses the clamped window `now + min(ttl*1000, 10000)`. -/
theorem localRefreshAsymmetry_amended (c : EdgeCache) (kv : KV) (now : Int)
    (key : String) (fetcher : Option (Except String JSValue)) (ttl : Int)
    (d : JSONData) (v : JSValue)
    (h1 : mapGet c.memoryCache ( CACHE_PREFIX ++ key) = none)
    (h2 : db.get now kv ( CACHE_PREFIX ++ key) = some d)
    (h3 : d.data.truthy = true) :
    mapGet (EdgeCache.get c kv ⟨false, false, false, false⟩ now key
        fetcher ttl).cache.memoryCache ( CACHE_PREFIX ++ key) =
      some { data := d.data, expires := now + 10000 } ∧
    mapGet (EdgeCache.set c kv ⟨false, false, false, false⟩ now key
        v ttl).cache.memoryCache ( CACHE_PREFIX ++ key) =
      some { data := v, expires := now + min (ttl * 1000) 10000 } := by
  constructor
  · simp only [EdgeCache.get, h1, EdgeCache.getDurablePath, h2, h3]
    simp only [Bool.false_eq_true, if_false, if_true]
    exact mapGet_mapSet_self _ _ _
  · simp only [EdgeCache.set, Bool.false_eq_true, if_false]
    exact mapGet_mapSet_self _ _ _

/-- C1 witness: the amended theorem evaluated on a concrete store. -/
theorem localRefreshAsymmetry_witness :
    mapGet (EdgeCache.get { memoryCache := [] } kvC1 ⟨false, false, false, false⟩ 0 "k"
        none 1).cache.memoryCache ( CACHE_PREFIX ++ "k") =
      some { data := dC1.data, expires := 0 + 10000 } ∧
    mapGet (EdgeCache.set { memoryCache := [] } kvC1 ⟨false, false, false, false⟩ 0 "k"
        (JSValue.num 5) 1).cache.memoryCache ( CACHE_PREFIX ++ "k") =
      some { data := JSValue.num 5, expires := 0 + min (1 * 1000) 10000 } :=
  localRefreshAsymmetry_amended { memoryCache := [] } kvC1 0 "k" none 1 dC1
    (JSValue.num 5) (by decide) (by decide) (by decide)

/-- C2 counterexample: with `ttl = 0` the local-tier entry written by
`set` expires at `now` itself, so an immediate `get` is *not* served from
the local tier — it comes back from the durable tier (`kv.set` stored it
without expiry since `0` is falsy). -/
theorem readYourWrites_cx :
    (EdgeCache.get
        (EdgeCache.set { memoryCache := [] } [] ⟨false, false, false, false⟩ 0 "k"
          (JSValue.str "x") 0).cache
        (EdgeCache.set { memoryCache := [] } [] ⟨false, false, false, false⟩ 0 "k"
          (JSValue.str "x") 0).kv
        ⟨false, false, false, false⟩ 0 "k" none DEFAULT_TTL).outcome =
      GetOutcome.hitDurable ∧
    GetOutcome.hitDurable ≠ GetOutcome.hitLocal := by decide

/-- C2 (amended): read-your-writes on the local tier holds for every key,
every value (truthy or falsy) and every TTL of at least one second: a
`set(k, v, ttl)` followed at the same instant by `get(k)` with no fetcher
returns `v` with outcome hit-local.  (At `ttl = 0` the local entry is
already expired and the read is served by the durable tier instead.) -/
theorem readYourWrites_amended (c : EdgeCache) (kv : KV) (now : Int) (key : String)
    (v : JSValue) (ttl : Int) (h : 1 ≤ ttl) :
    (EdgeCache.get (EdgeCache.set c kv ⟨false, false, false, false⟩ now key v ttl).cache
        (EdgeCache.set c kv ⟨false, false, false, false⟩ now key v ttl).kv
        ⟨false, false, false, false⟩ now key none DEFAULT_TTL).value = some v ∧
    (EdgeCache.get (EdgeCache.set c kv ⟨false, false, false, false⟩ now key v ttl).cache
        (EdgeCache.set c kv ⟨false, false, false, false⟩ now key v ttl).kv
        ⟨false, false, false, false⟩ now key none DEFAULT_TTL).outcome =
      GetOutcome.hitLocal := by
  have hset : (EdgeCache.set c kv ⟨false, false, false, false⟩ now key v ttl).cache.memoryCache =
      mapSet c.memoryCache ( CACHE_PREFIX ++ key)
        { data := v, expires := now + min (ttl * 1000) 10000 } := by
    simp [EdgeCache.set]
  have hmem : mapGet (EdgeCache.set c kv ⟨false, false, false, false⟩ now key
      v ttl).cache.memoryCache ( CACHE_PREFIX ++ key) =
      some { data := v, expires := now + min (ttl * 1000) 10000 } := by
    rw [hset]; exact mapGet_mapSet_self _ _ _
  have hpos : (0 : Int) < min (ttl * 1000) 10000 :=
    lt_min_iff.mpr ⟨by omega, by norm_num⟩
  have hlt : now < now + min (ttl * 1000) 10000 := by linarith
  constructor <;>
    simp only [EdgeCache.get, hmem, hlt, if_true, if_pos hlt]

/-- C2 witness: the amended theorem at `ttl = 1` on an empty store. -/
theorem readYourWrites_witness :
    (EdgeCache.get
        (EdgeCache.set { memoryCache := [] } [] ⟨false, false, false, false⟩ 0 "k"
          (JSValue.str "x") 1).cache
        (EdgeCache.set { memoryCache := [] } [] ⟨false, false, false, false⟩ 0 "k"
          (JSValue.str "x") 1).kv
        ⟨false, false, false, false⟩ 0 "k" none DEFAULT_TTL).value =
      some (JSValue.str "x") ∧
    (EdgeCache.get
        (EdgeCache.set { memoryCache := [] } [] ⟨false, false, false, false⟩ 0 "k"
          (JSValue.str "x") 1).cache
        (EdgeCache.set { memoryCache := [] } [] ⟨false, false, false, false⟩ 0 "k"
          (JSValue.str "x") 1).kv
        ⟨false, false, false, false⟩ 0 "k" none DEFAULT_TTL).outcome =
      GetOutcome.hitLocal :=
  readYourWrites_amended { memoryCache := [] } [] 0 "k" (JSValue.str "x") 1 (by decide)

/-- C6: a local-tier entry whose expiry lies in the past is never served
from the local tier — `get` proceeds to the durable tier or the fetcher,
whatever the failure pattern, fetcher, or TTL. -/
theorem expiredLocalEntry_never_served (c : EdgeCache) (kv : KV) (fail : DBFail)
    (now : Int) (key : String) (fetcher : Option (Except String JSValue)) (ttl : Int)
    (m : MemEntry)
    (h1 : mapGet c.memoryCache ( CACHE_PREFIX ++ key) = some m)
    (h2 : m.expires < now) :
    (EdgeCache.get c kv fail now key fetcher ttl).outcome ≠ GetOutcome.hitLocal := by
  simp only [EdgeCache.get, h1]
  rw [if_neg (by omega : ¬ now < m.expires)]
  exact getDurablePath_outcome_ne_hitLocal c kv fail now key fetcher ttl

/-- C6 witness: an entry that expired at t=5, read at t=10. -/
theorem expiredLocalEntry_witness :
    (EdgeCache.get { memoryCache := [("cache:k", { data := JSValue.num 3, expires := 5 })] }
        [] ⟨false, false, false, false⟩ 10 "k" none DEFAULT_TTL).outcome ≠
      GetOutcome.hitLocal :=
  expiredLocalEntry_never_served
    { memoryCache := [("cache:k", { data := JSValue.num 3, expires := 5 })] }
    [] ⟨false, false, false, false⟩ 10 "k" none DEFAULT_TTL
    { data := JSValue.num 3, expires := 5 } (by decide) (by decide)

/-- C9: a durable-tier entry holding a falsy value (`0`, `false`, `""`,
`null`) is treated as a durable-tier miss: the stored value is not
returned, the local tier is not refreshed from it, and a supplied fetcher
is invoked (its fresh value is returned and stored); with no fetcher the
read is absent and the local tier is left untouched. -/
theorem falsyDurableValue_miss (c : EdgeCache) (kv : KV) (now : Int) (key : String)
    (ttl : Int) (d : JSONData) (fv : JSValue)
    (h1 : mapGet c.memoryCache ( CACHE_PREFIX ++ key) = none)
    (h2 : db.get now kv ( CACHE_PREFIX ++ key) = some d)
    (h3 : d.data.truthy = false) :
    (EdgeCache.get c kv ⟨false, false, false, false⟩ now key
        (some (Except.ok fv)) ttl).outcome = GetOutcome.missFresh ∧
    (EdgeCache.get c kv ⟨false, false, false, false⟩ now key
        (some (Except.ok fv)) ttl).value = some fv ∧
    mapGet (EdgeCache.get c kv ⟨false, false, false, false⟩ now key
        (some (Except.ok fv)) ttl).cache.memoryCache ( CACHE_PREFIX ++ key) =
      some { data := fv, expires := now + min (ttl * 1000) 10000 } ∧
    (EdgeCache.get c kv ⟨false, false, false, false⟩ now key none ttl).outcome =
      GetOutcome.absent ∧
    (EdgeCache.get c kv ⟨false, false, false, false⟩ now key none ttl).value = none ∧
    (EdgeCache.get c kv ⟨false, false, false, false⟩ now key none ttl).cache = c := by
  simp only [EdgeCache.get, h1, EdgeCache.getDurablePath, h2, h3,
    EdgeCache.getFetchPath, EdgeCache.set]
  simp [mapGet_mapSet_self]

/-- A concrete durable record holding the falsy value `0`. -/
def dC9 : JSONData :=
  { id := "cache:z", data := JSValue.num 0, timestamp := 0, version := 1, metadata := none }

/-- A concrete durable tier holding `dC9`. -/
def kvC9 : KV := [("cache:z", { value := dC9, expiresAt := none })]

/-- C9 witness: a stored `0` is skipped and the fetcher's value is used. -/
theorem falsyDurableValue_witness :
    (EdgeCache.get { memoryCache := [] } kvC9 ⟨false, false, false, false⟩ 0 "z"
        (some (Except.ok (JSValue.str "fresh"))) 60).outcome = GetOutcome.missFresh ∧
    (EdgeCache.get { memoryCache := [] } kvC9 ⟨false, false, false, false⟩ 0 "z"
        (some (Except.ok (JSValue.str "fresh"))) 60).value = some (JSValue.str "fresh") ∧
    mapGet (EdgeCache.get { memoryCache := [] } kvC9 ⟨false, false, false, false⟩ 0 "z"
        (some (Except.ok (JSValue.str "fresh"))) 60).cache.memoryCache
        ( CACHE_PREFIX ++ "z") =
      some { data := JSValue.str "fresh", expires := 0 + min (60 * 1000) 10000 } ∧
    (EdgeCache.get { memoryCache := [] } kvC9 ⟨false, false, false, false⟩ 0 "z"
        none 60).outcome = GetOutcome.absent ∧
    (EdgeCache.get { memoryCache := [] } kvC9 ⟨false, false, false, false⟩ 0 "z"
        none 60).value = none ∧
    (EdgeCache.get { memoryCache := [] } kvC9 ⟨false, false, false, false⟩ 0 "z"
        none 60).cache = { memoryCache := [] } :=
  falsyDurableValue_miss { memoryCache := [] } kvC9 0 "z" 60 dC9 (JSValue.str "fresh")
    (by decide) (by decide) (by decide)

/-- C3 counterexample: the claim's pruning interval is closed at
`now - windowMs`, but the code keeps only timestamps with
`now - time < windowMs` (strict).  With `maxRequests = 1, windowMs = 1000`,
after an admitted call at t=0, a call at exactly t=1000 is admitted by the
code while the claim's algorithm rejects it, because the claim still
counts the t=0 timestamp as inside `[0, 1000]`. -/
theorem slidingWindow_cx :
    (RateLimiter.isAllowed
        (RateLimiter.isAllowed { requests := [], maxRequests := 1, windowMs := 1000 }
          0 "id").2 1000 "id").1 = true ∧
    (RateLimiter.isAllowedClaimWindow
        (RateLimiter.isAllowed { requests := [], maxRequests := 1, windowMs := 1000 }
          0 "id").2 1000 "id").1 = false := by decide

/-- C3 (amended): `isAllowed` prunes to the timestamps strictly newer than
`now - windowMs` (the half-open window, `now - time < windowMs`), admits
and appends `now` exactly when the pruned count is below `maxRequests`,
and rejects leaving the state untouched otherwise — this is exactly
`isAllowedStrictWindow`, for every state, instant and identifier; and with
`maxRequests = 5, windowMs = 1000`, five calls within one second are
admitted, the sixth is rejected, and admission resumes after the window. -/
theorem slidingWindow_amended :
    (∀ (rl : RateLimiter) (now : Int) (identifier : String),
      RateLimiter.isAllowed rl now identifier =
        RateLimiter.isAllowedStrictWindow rl now identifier) ∧
    RateLimiter.runCalls { requests := [], maxRequests := 5, windowMs := 1000 } "id"
        [0, 100, 200, 300, 400, 450, 1100] =
      [true, true, true, true, true, false, true] := by
  constructor
  · intro rl now identifier
    have hfun : (fun time => decide (now - time < rl.windowMs)) =
        (fun time => decide (now - rl.windowMs < time)) := by
      funext t
      simp only [decide_eq_decide]
      omega
    simp only [RateLimiter.isAllowed, RateLimiter.isAllowedStrictWindow, hfun]
  · decide

/-- C4 counterexample: feeding the 100 samples 10, 20, ..., 1000 yields
`p95ResponseTime = 960`, not the claimed 950: `floor(100 * 0.95) = 95`
indexes the ascending-sorted times 0-based, selecting the 96th-smallest
value. -/
theorem p95Example_cx :
    (PerformanceMonitor.getStats (feedMetrics { metrics := [], maxMetrics := 100 }
        samples100)).p95ResponseTime = 960 ∧ (960 : Int) ≠ 950 := by decide

/-- C4 (amended): after recording the 100 samples with response times
10, 20, ..., 1000, `getStats()` returns `p95ResponseTime = 960` — the
element at 0-based index `floor(100 * 0.95) = 95` of the ascending-sorted
response times, i.e. the 96th-smallest value. -/
theorem p95Example_amended :
    (PerformanceMonitor.getStats (feedMetrics { metrics := [], maxMetrics := 100 }
        samples100)).p95ResponseTime = 960 ∧
    (feedMetrics { metrics := [], maxMetrics := 100 } samples100).metrics.length *
        95 / 100 = 95 ∧
    (sortAsc ((feedMetrics { metrics := [], maxMetrics := 100 }
        samples100).metrics.map (fun m => m.responseTime))).getD 95 0 = 960 := by decide

/-- C8: for a nonempty buffer, `getStats` returns the nearest-rank
percentiles at 0-based indices `floor(n*0.95)` and `floor(n*0.99)` of the
ascending-sorted response times (both indices in range), the hit rate
`hits/n*100`, and the sample count; the sorted list really is an ascending
reordering of the response times; and with zero samples every numeric
field is zero. -/
theorem getStats_contract (pm : PerformanceMonitor) (h : pm.metrics ≠ []) :
    pm.metrics.length * 95 / 100 < pm.metrics.length ∧
    pm.metrics.length * 99 / 100 < pm.metrics.length ∧
    (PerformanceMonitor.getStats pm).p95ResponseTime =
      (sortAsc (pm.metrics.map (fun m => m.responseTime))).getD
        (pm.metrics.length * 95 / 100) 0 ∧
    (PerformanceMonitor.getStats pm).p99ResponseTime =
      (sortAsc (pm.metrics.map (fun m => m.responseTime))).getD
        (pm.metrics.length * 99 / 100) 0 ∧
    (PerformanceMonitor.getStats pm).cacheHitRate =
      (((pm.metrics.filter (fun m => m.cacheStatus == CacheStatus.hit)).length : Rat) /
        (pm.metrics.length : Rat)) * 100 ∧
    (PerformanceMonitor.getStats pm).count = pm.metrics.length ∧
    List.Sorted (fun a b => a ≤ b) (sortAsc (pm.metrics.map (fun m => m.responseTime))) ∧
    List.Perm (sortAsc (pm.metrics.map (fun m => m.responseTime)))
      (pm.metrics.map (fun m => m.responseTime)) ∧
    PerformanceMonitor.getStats { metrics := [], maxMetrics := pm.maxMetrics } =
      { count := 0, averageResponseTime := 0, cacheHitRate := 0
        p95ResponseTime := 0, p99ResponseTime := 0 } := by
  have hlen : pm.metrics.length ≠ 0 := fun hc => h (List.length_eq_zero.mp hc)
  have hpos : 1 ≤ pm.metrics.length := Nat.one_le_iff_ne_zero.mpr hlen
  have h95 : pm.metrics.length * 95 / 100 < pm.metrics.length := by
    rw [Nat.div_lt_iff_lt_mul (by norm_num)]
    omega
  have h99 : pm.metrics.length * 99 / 100 < pm.metrics.length := by
    rw [Nat.div_lt_iff_lt_mul (by norm_num)]
    omega
  refine ⟨h95, h99, ?_, ?_, ?_, ?_, ?_, ?_, ?_⟩
  · simp [PerformanceMonitor.getStats, hlen]
  · simp [PerformanceMonitor.getStats, hlen]
  · simp [PerformanceMonitor.getStats, hlen]
  · simp [PerformanceMonitor.getStats, hlen]
  · exact List.sorted_insertionSort _ _
  · exact List.perm_insertionSort _ _
  · simp [PerformanceMonitor.getStats]

/-- A one-sample monitor used by the C8 witness. -/
def pmW : PerformanceMonitor :=
  { metrics := [{ responseTime := 5, cacheStatus := CacheStatus.hit
                  region := "", timestamp := "" }]
    maxMetrics := 100 }

/-- C8 witness: the contract evaluated on a one-sample monitor. -/
theorem getStats_contract_witness :
    pmW.metrics.length * 95 / 100 < pmW.metrics.length ∧
    pmW.metrics.length * 99 / 100 < pmW.metrics.length ∧
    (PerformanceMonitor.getStats pmW).p95ResponseTime =
      (sortAsc (pmW.metrics.map (fun m => m.responseTime))).getD
        (pmW.metrics.length * 95 / 100) 0 ∧
    (PerformanceMonitor.getStats pmW).p99ResponseTime =
      (sortAsc (pmW.metrics.map (fun m => m.responseTime))).getD
        (pmW.metrics.length * 99 / 100) 0 ∧
    (PerformanceMonitor.getStats pmW).cacheHitRate =
      (((pmW.metrics.filter (fun m => m.cacheStatus == CacheStatus.hit)).length : Rat) /
        (pmW.metrics.length : Rat)) * 100 ∧
    (PerformanceMonitor.getStats pmW).count = pmW.metrics.length ∧
    List.Sorted (fun a b => a ≤ b) (sortAsc (pmW.metrics.map (fun m => m.responseTime))) ∧
    List.Perm (sortAsc (pmW.metrics.map (fun m => m.responseTime)))
      (pmW.metrics.map (fun m => m.responseTime)) ∧
    PerformanceMonitor.getStats { metrics := [], maxMetrics := pmW.maxMetrics } =
      { count := 0, averageResponseTime := 0, cacheHitRate := 0
        p95ResponseTime := 0, p99ResponseTime := 0 } :=
  getStats_contract pmW (by decide)

/-- C10: `getRecentMetrics 0` returns the whole stored buffer in
chronological order (not the empty list): `slice(-limit)` with
`limit = 0` is `slice(0)` because `-0 === 0` in JS. -/
theorem getRecentMetrics_zero (pm : PerformanceMonitor) :
    pm.getRecentMetrics 0 = pm.metrics := by
  simp [PerformanceMonitor.getRecentMetrics, jsSliceFrom]

/-- C5 counterexample: `invalidatePattern` with the empty pattern is not
rejected — the durable tier's list operation *is* invoked (on the bare
prefix `"cache:"`). -/
theorem invalidatePatternEmpty_cx :
    DBOp.listOp "cache:" ∈
      (EdgeCache.invalidatePattern { memoryCache := [] } [] ⟨false, false, false, false⟩
        0 "").trace := by decide

/-- C5 (amended): `invalidatePattern` performs no input validation at all:
for every pattern — the empty one included — its first durable-tier action
is the list operation on `CACHE_PREFIX ++ pattern`, and no caller input
error is ever signaled (storage errors are caught and logged). -/
theorem invalidatePattern_no_validation (c : EdgeCache) (kv : KV) (fail : DBFail)
    (now : Int) (pattern : String) :
    (EdgeCache.invalidatePattern c kv fail now pattern).trace.head? =
      some (DBOp.listOp ( CACHE_PREFIX ++ pattern)) := by
  unfold EdgeCache.invalidatePattern
  cases hf : fail.listFails
  · simp only [hf, Bool.false_eq_true, if_false]
    split <;> rfl
  · simp [hf]

/-- C7 counterexample: when the durable tier's list operation fails,
`clear()` does *not* empty the local tier — `memoryCache.clear()` is the
last statement of the same `try` block and is never reached. -/
theorem clearUnconditional_cx :
    (EdgeCache.clear
        { memoryCache := [("cache:k", { data := JSValue.num 1, expires := 5000 })] }
        [] ⟨false, false, false, true⟩ 0).cache =
      { memoryCache := [("cache:k", { data := JSValue.num 1, expires := 5000 })] } ∧
    [("cache:k", ({ data := JSValue.num 1, expires := 5000 } : MemEntry))] ≠
      ([] : List (String × MemEntry)) := by decide

/-- C7 (amended): when the durable operations succeed, `clear()` deletes
every live `cache:`-prefixed key from the durable tier (a fresh list
reports nothing) and empties the local tier; but when the durable list
fails, the error is caught and the local tier is left unchanged. -/
theorem clear_amended (c : EdgeCache) (kv : KV) (now : Int) :
    (EdgeCache.clear c kv ⟨false, false, false, false⟩ now).cache =
      { memoryCache := [] } ∧
    db.list now (EdgeCache.clear c kv ⟨false, false, false, false⟩ now).kv
      ( CACHE_PREFIX ++ "*") = [] ∧
    (EdgeCache.clear c kv ⟨false, false, false, true⟩ now).cache = c := by
  refine ⟨?_, ?_, ?_⟩
  · cases hl : db.list now kv ( CACHE_PREFIX ++ "*") <;>
      simp [EdgeCache.clear, hl]
  · have hgen := dbList_foldl_delete now kv ( CACHE_PREFIX ++ "*")
    cases hl : db.list now kv ( CACHE_PREFIX ++ "*") with
    | nil => simp [EdgeCache.clear, hl]
    | cons k ks =>
        rw [hl] at hgen
        simpa [EdgeCache.clear, hl] using hgen
  · simp [EdgeCache.clear]
